import Mathlib

/-!
# Verification of the repo-prompt-web conversational relay

A shallow embedding, in Lean 4, of the session-scoped conversational relay of
the `repo-prompt-web` service: the prompt assembler (`buildInitialPrompt`,
follow-up prompt construction), the conversation store and its Ask operations
(`AskQuestionAboutCode`, `AskQuestionAboutCodeStream`), the session store
(`SessionStorage`), the HTTP handler guard (`HandleAskCodeQuestion`), and the
Gemini gateway (`SendPrompt` with its retry loop, `SendPromptStream` with its
streaming retry loop).

Conventions of the embedding:
* Go strings are modelled as Lean `String`s; one Lean `Char` stands for one
  unit of a Go string (Go `len`/slicing act on that sequence).
* Go `time.Time` values are natural numbers (seconds); `time.Duration` values
  are natural numbers of seconds (all durations in the source are positive).
* A Go `map` iterated with `range` is modelled by the list of its entries in
  the (arbitrary) iteration order the runtime produced.
* Network effects are oracles passed as arguments: the blocking Gemini call is
  a function from the attempt index to that attempt's outcome; the streaming
  call is a function from the attempt index to the SSE events of the attempt.
* Fallible Go calls returning `(T, error)` are modelled with `Except`/`Option`.
-/

namespace RepoPromptWeb

/-! ## Data model (pkg/types and service types) -/

/-- `types.FileContent`: one entry of `ProcessResult.FileContents`
(the `Path` field duplicates the map key and is kept as the key only). -/
structure FileContent where
  content : String
  isBase64 : Bool
deriving Repr, DecidableEq

/-- `types.ProcessResult`. The file tree is abstracted to its rendered text
(`TreeNode.Print` output), which is the only way the tree reaches the code
under verification; `FileContents` is the list of map entries in iteration
order. -/
structure ProcessResult where
  fileTree : Option String
  fileContents : List (String × FileContent)
deriving Repr, DecidableEq

/-- `models.ProjectAnalysis` (only the field the relay reads). -/
structure ProjectAnalysis where
  promptSuggestions : List String
deriving Repr, DecidableEq

/-- `service.ConversationMsg`. -/
structure ConversationMsg where
  role : String
  content : String
deriving Repr, DecidableEq

/-- `service.ConversationContext`. -/
structure ConversationContext where
  initialPrompt : String
  messages : List ConversationMsg
  lastActive : Nat
deriving Repr, DecidableEq

/-- The `sessionHistory` map of `service.AIService`. -/
def ConvStore : Type := String → Option ConversationContext

/-- A fresh `AIService` has an empty `sessionHistory`. -/
def emptyConvStore : ConvStore := fun _ => none

def userMsg (q : String) : ConversationMsg := ⟨"user", q⟩

def assistantMsg (a : String) : ConversationMsg := ⟨"assistant", a⟩

/-! ## StringBuilder (service.StringBuilder.AppendLine) -/

/-- `StringBuilder.AppendLine`: appends the line and a newline. -/
def appendLine (acc line : String) : String := acc ++ line ++ "\n"

/-! ## Prompt assembler (service.buildInitialPrompt) -/

/-- The truncation marker appended by `buildInitialPrompt` to over-long file
contents. -/
def truncMarker : String := "...(内容已截断)"

/-- Per-file truncation in `buildInitialPrompt`:
`if len(fileContent) > 5000 { fileContent = fileContent[:5000] + marker }`. -/
def truncateContent (s : String) : String :=
  if s.length > 5000 then s.take 5000 ++ truncMarker else s

/-- The header part of `buildInitialPrompt`: system instruction, optional
project-analysis section, file-tree section, and the `## 文件内容` heading. -/
def initialHeader (pa : Option ProjectAnalysis) (tree : Option String) : String :=
  let p1 := appendLine "" "你是一位代码分析助手，正在分析一个代码库并回答关于代码的问题。请基于以下代码库的内容和项目架构分析来回答问题。"
  let p2 := match pa with
    | some a =>
        if a.promptSuggestions.length > 0 then
          appendLine (appendLine p1 "\n## 项目架构分析") (a.promptSuggestions.headD "")
        else p1
    | none => p1
  let p3 := appendLine p2 "\n## 文件结构"
  let p4 := match tree with
    | some t => appendLine p3 t
    | none => p3
  appendLine p4 "\n## 文件内容"

/-- The file-content loop of `buildInitialPrompt`: iterates the content map in
iteration order, breaks at 10 included files, skips base64 entries without
counting them, truncates each body, and appends the fenced block. -/
def fileSectionLoop : List (String × FileContent) → Nat → String → String
  | [], _, acc => acc
  | (path, c) :: rest, fileCount, acc =>
    if fileCount ≥ 10 then acc
    else if c.isBase64 then fileSectionLoop rest fileCount acc
    else
      let fileContent := truncateContent c.content
      fileSectionLoop rest (fileCount + 1)
        (appendLine (appendLine (appendLine (appendLine acc ("\n### " ++ path)) "```") fileContent) "```")

/-- `service.buildInitialPrompt`. -/
def buildInitialPrompt (result : ProcessResult) (pa : Option ProjectAnalysis) : String :=
  fileSectionLoop result.fileContents 0 (initialHeader pa result.fileTree)

/-- The list of (path, truncated body) pairs the file-content loop includes,
in order. This is the same loop as `fileSectionLoop` with the text rendering
stripped; `fileSectionLoop_eq_renderFiles` ties the two together. -/
def selectFiles : List (String × FileContent) → Nat → List (String × String)
  | [], _ => []
  | (path, c) :: rest, fileCount =>
    if fileCount ≥ 10 then []
    else if c.isBase64 then selectFiles rest fileCount
    else (path, truncateContent c.content) :: selectFiles rest (fileCount + 1)

/-- The text of one included file block. -/
def fileBlock (path body : String) : String :=
  "\n### " ++ path ++ "\n" ++ "```" ++ "\n" ++ body ++ "\n" ++ "```" ++ "\n"

/-- Rendering of a list of included file blocks. -/
def renderFiles : List (String × String) → String
  | [] => ""
  | (path, body) :: rest => fileBlock path body ++ renderFiles rest

/-! ## Follow-up prompt (second half of AskQuestionAboutCode) -/

/-- The transcript loop of the follow-up prompt: for each message in the
window, `AppendLine("\n" + role + ": " + content)`. -/
def renderMsgs (msgs : List ConversationMsg) (acc : String) : String :=
  msgs.foldl (fun a m => appendLine a ("\n" ++ m.role ++ ": " ++ m.content)) acc

/-- The follow-up prompt of `AskQuestionAboutCode` (and of the streaming
variant, which is textually identical): the initial prompt, the dialogue
history heading, then the messages from `startIdx` on, where
`startIdx = len - 10` if more than 10 messages exist, else `0`. -/
def buildFollowupPrompt (initialPrompt : String) (msgs : List ConversationMsg) : String :=
  let startIdx := if msgs.length > 10 then msgs.length - 10 else 0
  renderMsgs (msgs.drop startIdx) (appendLine (appendLine "" initialPrompt) "\n## 对话历史")

/-- Prompt construction of `AskQuestionAboutCode`, after the user question has
been appended to `msgs`: the first-turn prompt when `len(messages) <= 1`,
otherwise the follow-up prompt. -/
def buildOutboundPrompt (initialPrompt : String) (msgs : List ConversationMsg) (question : String) : String :=
  if msgs.length ≤ 1 then initialPrompt ++ "\n\n## 问题\n" ++ question
  else buildFollowupPrompt initialPrompt msgs

/-- Modelled from the spec: "a transcript of only the most recent `window`
messages" — the last `n` elements of a list. Compared against the source's
`startIdx` loop in the theorem for C1. -/
def lastWindow (n : Nat) (msgs : List ConversationMsg) : List ConversationMsg :=
  msgs.drop (msgs.length - n)

/-! ## Stream chunks (gemini.StreamChunk) -/

/-- `gemini.StreamChunk`; `error` is `Option` for Go's nullable `error`. -/
structure StreamChunk where
  text : String := ""
  finishReason : String := ""
  error : Option String := none
deriving Repr, DecidableEq

/-! ## Conversation store operations (service.AskQuestionAboutCode) -/

/-- Point update of the `sessionHistory` map. -/
def updateStore (hist : ConvStore) (sid : String) (ctx : ConversationContext) : ConvStore :=
  fun k => if k = sid then some ctx else hist k

/-- First half of `AskQuestionAboutCode` (under the write lock): look up or
lazily create the conversation, refresh `LastActive`, and append the user
question. -/
def lookupOrCreate (hist : ConvStore) (initialPrompt sid : String) (now : Nat) : ConversationContext :=
  match hist sid with
  | some c => c
  | none => ⟨initialPrompt, [], now⟩

def appendUser (c : ConversationContext) (question : String) (now : Nat) : ConversationContext :=
  { c with lastActive := now, messages := c.messages ++ [userMsg question] }

/-- The conversation store after the first (pre-network) half of an Ask. -/
def askPhase1 (hist : ConvStore) (initialPrompt sid question : String) (now : Nat) : ConvStore :=
  updateStore hist sid (appendUser (lookupOrCreate hist initialPrompt sid now) question now)

/-- Second half of an Ask on LLM success (under a fresh write lock): append
the assistant message if the conversation still exists, else drop it. -/
def askPhase2 (hist : ConvStore) (sid response : String) : ConvStore :=
  fun k =>
    if k = sid then
      match hist sid with
      | some c => some { c with messages := c.messages ++ [assistantMsg response] }
      | none => none
    else hist k

/-- `service.AskQuestionAboutCode`, with the blocking Gemini call abstracted
as `llm`. Returns the answer (or error) and the conversation store after the
operation. -/
def askQuestionAboutCode (hist : ConvStore) (result : ProcessResult)
    (pa : Option ProjectAnalysis) (question sid : String) (now : Nat)
    (llm : String → Except String String) : Except String String × ConvStore :=
  let ctx1 := appendUser (lookupOrCreate hist (buildInitialPrompt result pa) sid now) question now
  let hist1 := updateStore hist sid ctx1
  let prompt := buildOutboundPrompt ctx1.initialPrompt ctx1.messages question
  match llm prompt with
  | Except.error e => (Except.error e, hist1)
  | Except.ok response => (Except.ok response, askPhase2 hist1 sid response)

/-- The relay goroutine of `AskQuestionAboutCodeStream`: forwards upstream
chunks one-to-one while accumulating their text; on an error chunk it
forwards the chunk and stops (no assistant message); when the upstream
channel closes it reports the accumulated answer. Returns the chunks placed
on the caller's channel and `some answer` iff the stream ended without an
error chunk. -/
def relayChunks : List StreamChunk → String → List StreamChunk × Option String
  | [], acc => ([], some acc)
  | c :: rest, acc =>
    if c.error.isSome then ([c], none)
    else
      let r := relayChunks rest (acc ++ c.text)
      (c :: r.1, r.2)

/-- `service.AskQuestionAboutCodeStream`, with the streaming Gemini call
abstracted as `gw` (the chunks its channel will deliver, or the immediate
error of `SendPromptStream`). The relay goroutine's eventual effect on the
store is part of the returned store. -/
def askQuestionAboutCodeStream (hist : ConvStore) (result : ProcessResult)
    (pa : Option ProjectAnalysis) (question sid : String) (now : Nat)
    (gw : String → Except String (List StreamChunk)) :
    Except String (List StreamChunk) × ConvStore :=
  let ctx1 := appendUser (lookupOrCreate hist (buildInitialPrompt result pa) sid now) question now
  let hist1 := updateStore hist sid ctx1
  let prompt := buildOutboundPrompt ctx1.initialPrompt ctx1.messages question
  match gw prompt with
  | Except.error e => (Except.error e, hist1)
  | Except.ok chunks =>
    let r := relayChunks chunks ""
    match r.2 with
    | some response => (Except.ok r.1, askPhase2 hist1 sid response)
    | none => (Except.ok r.1, hist1)

/-! ## Ask transition system (for the conversation-store invariants)

A step is one completed `AskQuestionAboutCode` / `AskQuestionAboutCodeStream`
call on the `sessionHistory` map: `ok` when the LLM call succeeded (the
streaming variant with answer text the concatenation of the fragments), and
`fail` when it returned an error or the stream ended in an error chunk (the
user question stays recorded, no assistant message is appended). -/

inductive AskStep : ConvStore → ConvStore → Prop
  | ok (hist : ConvStore) (initialPrompt sid question : String) (now : Nat) (response : String) :
      AskStep hist (askPhase2 (askPhase1 hist initialPrompt sid question now) sid response)
  | fail (hist : ConvStore) (initialPrompt sid question : String) (now : Nat) :
      AskStep hist (askPhase1 hist initialPrompt sid question now)

/-- States of the conversation store reachable from a fresh service. -/
inductive ReachableConv : ConvStore → Prop
  | init : ReachableConv emptyConvStore
  | step {s t : ConvStore} : ReachableConv s → AskStep s t → ReachableConv t

/-- Steps in which every LLM call succeeded. -/
inductive AskStepOk : ConvStore → ConvStore → Prop
  | ok (hist : ConvStore) (initialPrompt sid question : String) (now : Nat) (response : String) :
      AskStepOk hist (askPhase2 (askPhase1 hist initialPrompt sid question now) sid response)

/-- States reached through Asks whose LLM calls all succeeded. -/
inductive ReachableConvOk : ConvStore → Prop
  | init : ReachableConvOk emptyConvStore
  | step {s t : ConvStore} : ReachableConvOk s → AskStepOk s t → ReachableConvOk t

/-- The role expected after `r` in an alternating dialogue. -/
def flipRole (r : String) : String := if r = "user" then "assistant" else "user"

/-- Role alternation check: the role sequence alternates, starting from the
expected role `r`. -/
def alternatesFrom : String → List String → Bool
  | _, [] => true
  | r, x :: xs => (x = r) && alternatesFrom (flipRole r) xs

/-- The role expected after consuming `l`, starting from expected role `r`. -/
def roleAfter (r : String) (l : List String) : String :=
  l.foldl (fun a _ => flipRole a) r

/-- The spec's invariant: roles alternate beginning with `user`. -/
def alternatesUserFirst (msgs : List ConversationMsg) : Bool :=
  alternatesFrom "user" (msgs.map ConversationMsg.role)

/-! ## Session storage (handler.go SessionStorage) -/

/-- `SessionData` (handler layer): the stored code context, analysis and
creation time. -/
structure SessionData where
  result : ProcessResult
  projectAnalysis : Option ProjectAnalysis
  createdAt : Nat
deriving Repr, DecidableEq

/-- `SessionStorage`: map from session handle to entry, plus the TTL. -/
structure SessionStorage where
  sessions : String → Option SessionData
  expiresIn : Nat

/-- `NewSessionStorage`: a non-positive TTL is replaced by 30 minutes. -/
def newSessionStorage (expiresIn : Nat) : SessionStorage :=
  { sessions := fun _ => none
    expiresIn := if expiresIn ≤ 0 then 30 * 60 else expiresIn }

/-- `SessionStorage.Get`: the entry if present and not logically expired
(`now - createdAt <= expiresIn`), otherwise not-found. Total: absence is the
only reported condition. -/
def SessionStorage.Get (ss : SessionStorage) (now : Nat) (sid : String) : Option SessionData :=
  match ss.sessions sid with
  | none => none
  | some s => if now - s.createdAt > ss.expiresIn then none else some s

/-- `SessionStorage.Put`: stores the entry under the fresh handle with the
current time. Total: always succeeds and returns the handle. -/
def SessionStorage.Put (ss : SessionStorage) (result : ProcessResult)
    (pa : Option ProjectAnalysis) (fresh : String) (now : Nat) : SessionStorage × String :=
  ({ ss with sessions := fun k => if k = fresh then some ⟨result, pa, now⟩ else ss.sessions k }, fresh)

/-- One sweep cycle of `cleanExpiredSessions`: removes every entry whose age
exceeds the TTL. -/
def SessionStorage.sweep (ss : SessionStorage) (now : Nat) : SessionStorage :=
  { ss with sessions := fun k =>
      match ss.sessions k with
      | some s => if now - s.createdAt > ss.expiresIn then none else some s
      | none => none }

/-! ## HTTP handler (handler.go FileHandler.HandleAskCodeQuestion) -/

/-- The handler's observable reply. -/
inductive HttpReply where
  | badRequest (msg : String)
  | notFound (msg : String)
  | okAnswer (answer : String)
  | serverError (msg : String)
  | sseStream (chunks : List StreamChunk)
  | sseError (msg : String)
deriving Repr, DecidableEq

/-- `FileHandler.HandleAskCodeQuestion`: parameter guards, session lookup,
then the streaming or blocking Ask. Returns the reply and the conversation
store after the request. -/
def handleAskCodeQuestion (ss : SessionStorage) (now : Nat) (hist : ConvStore)
    (question sid : String) (useStream : Bool)
    (llm : String → Except String String)
    (gw : String → Except String (List StreamChunk)) : HttpReply × ConvStore :=
  if question = "" then (HttpReply.badRequest "请提供问题内容", hist)
  else if sid = "" then (HttpReply.badRequest "请提供会话ID", hist)
  else
    match SessionStorage.Get ss now sid with
    | none => (HttpReply.notFound "会话不存在或已过期，请重新上传代码", hist)
    | some sdata =>
      if useStream then
        match askQuestionAboutCodeStream hist sdata.result sdata.projectAnalysis question sid now gw with
        | (Except.error e, hist') => (HttpReply.sseError e, hist')
        | (Except.ok chunks, hist') => (HttpReply.sseStream chunks, hist')
      else
        match askQuestionAboutCode hist sdata.result sdata.projectAnalysis question sid now llm with
        | (Except.error e, hist') => (HttpReply.serverError e, hist')
        | (Except.ok ans, hist') => (HttpReply.okAnswer ans, hist')

/-! ## Gemini gateway, blocking path (gemini.Client.SendPrompt) -/

/-- One candidate of a decoded `GeminiResponse` (its parts flattened to their
text). -/
structure Candidate where
  parts : List String
  finishReason : String
deriving Repr, DecidableEq

/-- A decoded `GeminiResponse` body. -/
structure GeminiBody where
  blockReason : String
  candidates : List Candidate
deriving Repr, DecidableEq

/-- The outcome of one `httpClient.Do` round-trip of the blocking path:
either a transport error, or a response with its status code and the decoded
body (`none` = JSON decode failure). -/
inductive AttemptOutcome where
  | transportError
  | response (status : Nat) (body : Option GeminiBody)
deriving Repr, DecidableEq

/-- Errors of the blocking path, one constructor per `return` site of
`SendPrompt`. -/
inductive SendError where
  | noApiKey
  | apiError (status : Nat)
  | decodeFailed
  | blocked (reason : String)
  | emptyResponse
  | maxRetriesExceeded
deriving Repr, DecidableEq

/-- `len(candidates) == 0 || len(candidates[0].parts) == 0`. -/
def candidatesEmpty (r : GeminiBody) : Bool :=
  match r.candidates with
  | [] => true
  | c :: _ => c.parts.isEmpty

/-- `candidates[0].parts[0]` (only read when `candidatesEmpty` is false). -/
def headText (r : GeminiBody) : String :=
  match r.candidates with
  | [] => ""
  | c :: _ => c.parts.headD ""

/-- Result of the blocking path: the answer or error, the number of attempts
performed, and the list of sleeps (in seconds) performed before retries. -/
abbrev SendResult : Type := Except SendError String × Nat × List Nat

/-- The retry loop of `SendPrompt`. `remaining` is the number of loop
iterations left (`maxRetries - attempt`), `attempt` the Go loop counter,
`retryDelay` the current backoff delay, `delays` the sleeps performed so far.
Transport errors `continue` unconditionally; 5xx, decode failures and empty
candidate sets `continue` only while `attempt < maxRetries-1`; other non-2xx
statuses and a block reason return at once; a loop that ends without a
response yields the generic max-retries error (a successful response whose
text is empty also falls through to it). -/
def sendLoop (oracle : Nat → AttemptOutcome) : Nat → Nat → Nat → List Nat → SendResult
  | 0, _, _, delays => (Except.error SendError.maxRetriesExceeded, 3, delays)
  | remaining + 1, attempt, retryDelay, delays =>
    let delays' := if 0 < attempt then delays ++ [retryDelay] else delays
    let retryDelay' := if 0 < attempt then retryDelay * 2 else retryDelay
    match oracle attempt with
    | AttemptOutcome.transportError =>
        sendLoop oracle remaining (attempt + 1) retryDelay' delays'
    | AttemptOutcome.response status body =>
      if status < 200 ∨ 300 ≤ status then
        if 500 ≤ status ∧ attempt < 2 then
          sendLoop oracle remaining (attempt + 1) retryDelay' delays'
        else (Except.error (SendError.apiError status), attempt + 1, delays')
      else
        match body with
        | none =>
          if attempt < 2 then sendLoop oracle remaining (attempt + 1) retryDelay' delays'
          else (Except.error SendError.decodeFailed, attempt + 1, delays')
        | some r =>
          if r.blockReason ≠ "" then
            (Except.error (SendError.blocked r.blockReason), attempt + 1, delays')
          else if candidatesEmpty r then
            if attempt < 2 then sendLoop oracle remaining (attempt + 1) retryDelay' delays'
            else (Except.error SendError.emptyResponse, attempt + 1, delays')
          else
            (if headText r = "" then Except.error SendError.maxRetriesExceeded
             else Except.ok (headText r), attempt + 1, delays')

/-- `gemini.Client.SendPrompt`: the API-key guard, then the retry loop with
`maxRetries = 3` and initial `retryDelay = 2` seconds. -/
def sendPrompt (apiKey : String) (oracle : Nat → AttemptOutcome) : SendResult :=
  if apiKey = "" then (Except.error SendError.noApiKey, 0, [])
  else sendLoop oracle 3 0 2 []

/-- An attempt outcome on which `SendPrompt` is willing to retry. -/
def retryable : AttemptOutcome → Bool
  | AttemptOutcome.transportError => true
  | AttemptOutcome.response status body =>
    if status < 200 ∨ 300 ≤ status then 500 ≤ status
    else
      match body with
      | none => true
      | some r => r.blockReason = "" && candidatesEmpty r

/-- The sleeps performed by `a` retries: 2s, then doubling. -/
def delaysFor (a : Nat) : List Nat := (List.range a).map (fun k => 2 * 2 ^ k)

/-! ## Gemini gateway, streaming path (gemini.Client.SendPromptStream) -/

/-- One `data:` event of the SSE stream: the `[DONE]` marker, a line whose
JSON fails to parse, or a decoded `GeminiResponse` payload. Blank and
non-`data:` lines are skipped by the scanner and not modelled. -/
inductive SSEEvent where
  | done
  | malformed
  | payload (r : GeminiBody)
deriving Repr, DecidableEq

/-- One attempt of the streaming path: a transport error, or a response with
status, the SSE events the body delivers, and whether the scanner ends with a
read error (`readErr` applies only when the scan loop consumes every event
without breaking early). -/
inductive StreamAttempt where
  | transportError
  | response (status : Nat) (events : List SSEEvent) (readErr : Bool)
deriving Repr, DecidableEq

/-- Result of the scan loop of one attempt: chunks pushed so far, the
`successfulStream` flag, whether the loop `break`-ed before consuming every
event, and whether the closure returned on a block reason. -/
structure ScanOut where
  chunks : List StreamChunk
  successful : Bool
  brokeEarly : Bool
  blockedRet : Bool
deriving Repr, DecidableEq

/-- The SSE scan loop of `SendPromptStream`: `[DONE]` sets the flag and
breaks; an unparsable line pushes an error chunk and continues; a block
reason pushes an error chunk and returns from the closure; a payload with a
candidate part pushes the content chunk, sets the flag, and breaks when a
finish reason is present; payloads without candidates or parts are skipped. -/
def scanEvents : List SSEEvent → Bool → ScanOut
  | [], successful => ⟨[], successful, false, false⟩
  | e :: rest, successful =>
    match e with
    | SSEEvent.done => ⟨[], true, true, false⟩
    | SSEEvent.malformed =>
        let r := scanEvents rest successful
        ⟨{ error := some "解析响应失败" } :: r.chunks, r.successful, r.brokeEarly, r.blockedRet⟩
    | SSEEvent.payload g =>
        if g.blockReason ≠ "" then
          ⟨[{ error := some ("提示词被阻止: " ++ g.blockReason) }], successful, false, true⟩
        else
          match g.candidates with
          | [] => scanEvents rest successful
          | c :: _ =>
            match c.parts with
            | [] => scanEvents rest successful
            | t :: _ =>
              if c.finishReason ≠ "" then
                ⟨[{ text := t, finishReason := c.finishReason }], true, true, false⟩
              else
                let r := scanEvents rest true
                ⟨{ text := t, finishReason := c.finishReason } :: r.chunks, r.successful, r.brokeEarly, r.blockedRet⟩

/-- What the goroutine does after one attempt: stop (goroutine `return`, or
`attempt = maxRetries` after a successful stream), or fall through to the
next iteration of the outer retry loop (every `return` inside the
per-attempt closure lands here). -/
inductive NextAction where
  | finish
  | retryLoop
deriving Repr, DecidableEq

/-- One attempt of the streaming goroutine: the chunks it pushes and what
happens next. Only the transport-error path on the last attempt and the
successful-stream path leave the outer loop; the error-chunk paths return
from the closure, so the outer loop continues. -/
def runAttempt (a : StreamAttempt) (attempt : Nat) : List StreamChunk × NextAction :=
  match a with
  | StreamAttempt.transportError =>
    if attempt < 1 then ([], NextAction.retryLoop)
    else ([{ error := some "请求失败" }], NextAction.finish)
  | StreamAttempt.response status events readErr =>
    if status < 200 ∨ 300 ≤ status then
      if 500 ≤ status ∧ attempt < 1 then ([], NextAction.retryLoop)
      else ([{ error := some ("API 返回错误 (" ++ toString status ++ ")") }], NextAction.retryLoop)
    else
      let s := scanEvents events false
      if s.blockedRet then (s.chunks, NextAction.retryLoop)
      else if ¬ s.brokeEarly ∧ readErr then
        if ¬ s.successful ∧ attempt < 1 then (s.chunks, NextAction.retryLoop)
        else (s.chunks ++ [{ error := some "读取流失败" }], NextAction.retryLoop)
      else
        if s.successful then (s.chunks, NextAction.finish)
        else (s.chunks, NextAction.retryLoop)

/-- The outer retry loop of the streaming goroutine (`maxRetries = 2`):
concatenates the chunks each attempt pushes onto the channel, in order, until
an attempt finishes the goroutine or the loop is exhausted. -/
def streamLoop (oracle : Nat → StreamAttempt) : Nat → Nat → List StreamChunk
  | 0, _ => []
  | remaining + 1, attempt =>
    let r := runAttempt (oracle attempt) attempt
    match r.2 with
    | NextAction.finish => r.1
    | NextAction.retryLoop => r.1 ++ streamLoop oracle remaining (attempt + 1)

/-- `gemini.Client.SendPromptStream`: the API-key guard (`nil` channel plus
error, modelled as `Except.error`), then the goroutine whose channel delivers
`streamLoop`'s chunks and closes. -/
def sendPromptStream (apiKey : String) (oracle : Nat → StreamAttempt) :
    Except String (List StreamChunk) :=
  if apiKey = "" then Except.error "Gemini API 密钥未配置"
  else Except.ok (streamLoop oracle 2 0)

/-! ## Theorems -/

/-- Claim C1: for every Ask on an existing conversation, after appending the
user question: with exactly one message the outbound prompt is the initial
prompt concatenated (through the fixed question heading) with the question;
otherwise it is the initial prompt followed by a transcript of only the most
recent 10 messages, each rendered as `role: content`. The third part grounds
`buildOutboundPrompt` in `askQuestionAboutCode`: the prompt handed to the LLM
gateway is exactly `buildOutboundPrompt` of the post-append message list. -/
theorem C1_outbound_prompt (ip : String) (msgs : List ConversationMsg) (q : String) :
    (msgs.length = 1 → buildOutboundPrompt ip msgs q = ip ++ "\n\n## 问题\n" ++ q) ∧
    (1 < msgs.length → buildOutboundPrompt ip msgs q =
      renderMsgs (lastWindow 10 msgs) (appendLine (appendLine "" ip) "\n## 对话历史")) ∧
    (∀ (hist : ConvStore) (result : ProcessResult) (pa : Option ProjectAnalysis)
      (sid : String) (now : Nat),
      (askQuestionAboutCode hist result pa q sid now (fun p => Except.error p)).1 =
        Except.error (buildOutboundPrompt
          (lookupOrCreate hist (buildInitialPrompt result pa) sid now).initialPrompt
          ((lookupOrCreate hist (buildInitialPrompt result pa) sid now).messages ++ [userMsg q]) q)) := by
  refine ⟨fun h => by simp [buildOutboundPrompt, h], fun h => ?_, fun hist result pa sid now => rfl⟩
  have h1 : ¬ msgs.length ≤ 1 := by omega
  simp only [buildOutboundPrompt, if_neg h1, buildFollowupPrompt, lastWindow]
  by_cases h10 : msgs.length > 10
  · simp [h10]
  · have h0 : msgs.length - 10 = 0 := by omega
    simp [h10, h0]

/-- Claim C1 witness: both branches at concrete inputs. -/
theorem C1_outbound_prompt_witness :
    buildOutboundPrompt "IP" [userMsg "q"] "q" = "IP" ++ "\n\n## 问题\n" ++ "q" ∧
    buildOutboundPrompt "IP" [userMsg "q1", assistantMsg "a1", userMsg "q2"] "q2" =
      renderMsgs (lastWindow 10 [userMsg "q1", assistantMsg "a1", userMsg "q2"])
        (appendLine (appendLine "" "IP") "\n## 对话历史") :=
  ⟨(C1_outbound_prompt "IP" [userMsg "q"] "q").1 (by decide),
   (C1_outbound_prompt "IP" [userMsg "q1", assistantMsg "a1", userMsg "q2"] "q2").2.1 (by decide)⟩

/-- Claim C3: `SessionStorage.Get` returns an entry exactly when the handle
is stored and `now - creationTime <= expiresIn`; in particular an expired but
not yet swept entry is reported not-found. The second part records the
30-minute TTL of the store as constructed; `Get` and `Put` are total
functions of the embedding (absence is the only reported condition). -/
theorem C3_sessionStorage_get_iff :
    (∀ (ss : SessionStorage) (now : Nat) (sid : String) (entry : SessionData),
      SessionStorage.Get ss now sid = some entry ↔
        ss.sessions sid = some entry ∧ now - entry.createdAt ≤ ss.expiresIn) ∧
    (newSessionStorage (30 * 60)).expiresIn = 30 * 60 := by
  refine ⟨fun ss now sid entry => ?_, by decide⟩
  unfold SessionStorage.Get
  cases h : ss.sessions sid with
  | none => simp
  | some s =>
    by_cases hexp : now - s.createdAt > ss.expiresIn
    · simp only [if_pos hexp]
      constructor
      · intro hc; cases hc
      · rintro ⟨hs, hle⟩
        cases hs
        omega
    · simp only [if_neg hexp]
      constructor
      · rintro hc; cases hc; exact ⟨rfl, by omega⟩
      · rintro ⟨hs, _⟩; cases hs; rfl

/-- Claim C3 witness: a concrete unexpired entry is found. -/
theorem C3_sessionStorage_get_iff_witness :
    SessionStorage.Get
      ⟨fun k => if k = "s" then some ⟨⟨none, []⟩, none, 10⟩ else none, 30 * 60⟩
      100 "s" = some ⟨⟨none, []⟩, none, 10⟩ :=
  (C3_sessionStorage_get_iff.1
      ⟨fun k => if k = "s" then some ⟨⟨none, []⟩, none, 10⟩ else none, 30 * 60⟩
      100 "s" ⟨⟨none, []⟩, none, 10⟩).mpr ⟨by decide, by decide⟩

/-- Claim C4: an Ask against a handle that is absent from (or expired in) the
session store answers NotFound and leaves the conversation store untouched —
no Conversation Context entry is created for the handle. -/
theorem C4_absent_session_not_found (ss : SessionStorage) (now : Nat) (hist : ConvStore)
    (question sid : String) (useStream : Bool)
    (llm : String → Except String String) (gw : String → Except String (List StreamChunk))
    (hq : question ≠ "") (hs : sid ≠ "")
    (habs : SessionStorage.Get ss now sid = none) :
    handleAskCodeQuestion ss now hist question sid useStream llm gw =
      (HttpReply.notFound "会话不存在或已过期，请重新上传代码", hist) := by
  unfold handleAskCodeQuestion
  simp [hq, hs, habs]

/-- Claim C4 witness: asking against a fresh (empty) session store. -/
theorem C4_absent_session_not_found_witness :
    handleAskCodeQuestion (newSessionStorage (30 * 60)) 0 emptyConvStore "q" "s" false
      (fun _ => Except.error "e") (fun _ => Except.error "e") =
      (HttpReply.notFound "会话不存在或已过期，请重新上传代码", emptyConvStore) :=
  C4_absent_session_not_found (newSessionStorage (30 * 60)) 0 emptyConvStore "q" "s" false
    (fun _ => Except.error "e") (fun _ => Except.error "e")
    (by decide) (by decide) (by rfl)

/-- The 11 text files of the C9 scenario, in one iteration order. -/
def entriesA : List (String × FileContent) :=
  ["a", "b", "c", "d", "e", "f", "g", "h", "i", "j", "k"].map (fun p => (p, ⟨"x", false⟩))

/-- The same content map in another iteration order. -/
def entriesB : List (String × FileContent) := entriesA.rotate 1

/-- Claim C9: initial-prompt file selection is not a function of the content
map alone: the same map, enumerated in two different iteration orders, yields
different 10-file subsets (here more than 10 non-binary files exist). -/
theorem C9_selection_order_dependent :
    entriesA.Perm entriesB ∧
    entriesA.length = 11 ∧
    (∀ e ∈ entriesA, e.2.isBase64 = false) ∧
    (selectFiles entriesA 0).map Prod.fst ≠ (selectFiles entriesB 0).map Prod.fst := by
  refine ⟨?_, by decide, by decide, by decide⟩
  unfold entriesB
  exact (List.rotate_perm entriesA 1).symm

/-- Claim C9 witness: one concrete entry of the scenario is a text file. -/
theorem C9_selection_order_dependent_witness :
    (("a", (⟨"x", false⟩ : FileContent)) : String × FileContent).2.isBase64 = false :=
  C9_selection_order_dependent.2.2.1 ("a", ⟨"x", false⟩) (by decide)

/-- Claim C10: with an empty API key, `SendPrompt` fails at once with zero
attempts and no sleeps, and `SendPromptStream` returns the nil-channel error
(modelled as `Except.error`), for every oracle — so no network attempt is
consumed in either case. -/
theorem C10_empty_api_key (oracle : Nat → AttemptOutcome) (soracle : Nat → StreamAttempt) :
    sendPrompt "" oracle = (Except.error SendError.noApiKey, 0, []) ∧
    sendPromptStream "" soracle = Except.error "Gemini API 密钥未配置" :=
  ⟨rfl, rfl⟩

/-- Claim C10 witness: concrete oracles. -/
theorem C10_empty_api_key_witness :
    sendPrompt "" (fun _ => AttemptOutcome.transportError) =
      (Except.error SendError.noApiKey, 0, []) ∧
    sendPromptStream "" (fun _ => StreamAttempt.transportError) =
      Except.error "Gemini API 密钥未配置" :=
  C10_empty_api_key (fun _ => AttemptOutcome.transportError) (fun _ => StreamAttempt.transportError)

/-- The file-content loop never includes more than the first `10 - count`
non-base64 entries, in iteration order, each with its truncated body. -/
theorem selectFiles_eq_filter_take (entries : List (String × FileContent)) :
    ∀ count : Nat, selectFiles entries count =
      ((entries.filter (fun e => !e.2.isBase64)).take (10 - count)).map
        (fun e => (e.1, truncateContent e.2.content)) := by
  induction entries with
  | nil => intro count; simp [selectFiles]
  | cons e rest ih =>
    intro count
    obtain ⟨p, c⟩ := e
    by_cases h10 : count ≥ 10
    · have : 10 - count = 0 := by omega
      simp [selectFiles, h10, this]
    · cases hb : c.isBase64 with
      | true => simp [selectFiles, h10, hb, ih count]
      | false =>
        have hs : 10 - count = (10 - (count + 1)) + 1 := by omega
        have hcond : ¬(c.isBase64 = true) := by simp [hb]
        simp only [selectFiles, if_neg h10, if_neg hcond]
        rw [hs]
        simp [List.filter_cons, hb, ih (count + 1)]

/-- String concatenation is associative (componentwise list append). -/
theorem strAppend_assoc (a b c : String) : a ++ b ++ c = a ++ (b ++ c) := by
  exact String.append_assoc a b c

/-- The text the file-content loop appends is the rendering of the selected
files. -/
theorem fileSectionLoop_eq_renderFiles (entries : List (String × FileContent)) :
    ∀ (count : Nat) (acc : String),
      fileSectionLoop entries count acc = acc ++ renderFiles (selectFiles entries count) := by
  induction entries with
  | nil => intro count acc; simp [fileSectionLoop, selectFiles, renderFiles]
  | cons e rest ih =>
    intro count acc
    obtain ⟨p, c⟩ := e
    by_cases h10 : count ≥ 10
    · simp [fileSectionLoop, selectFiles, h10, renderFiles]
    · cases hb : c.isBase64 with
      | true => simp [fileSectionLoop, selectFiles, h10, hb, ih count acc]
      | false =>
        have hcond : ¬(c.isBase64 = true) := by simp [hb]
        simp only [fileSectionLoop, selectFiles, if_neg h10, if_neg hcond]
        rw [ih (count + 1)]
        simp [renderFiles, appendLine, fileBlock, strAppend_assoc]

/-- Claim C5: the initial prompt includes at most 10 file bodies — the first
10 non-base64 entries in iteration order, base64 entries skipped without
counting toward the cap — and each included body is the source content
truncated to 5,000 characters with the truncation marker appended exactly
when the original was longer; `buildInitialPrompt` is the header followed by
the rendering of that selection. -/
theorem C5_initial_prompt_file_cap (entries : List (String × FileContent)) :
    (selectFiles entries 0).length ≤ 10 ∧
    selectFiles entries 0 =
      ((entries.filter (fun e => !e.2.isBase64)).take 10).map
        (fun e => (e.1, truncateContent e.2.content)) ∧
    (∀ p b, (p, b) ∈ selectFiles entries 0 →
      ∃ c, (p, c) ∈ entries ∧ c.isBase64 = false ∧
        ((c.content.length ≤ 5000 ∧ b = c.content) ∨
         (5000 < c.content.length ∧ b = c.content.take 5000 ++ truncMarker))) ∧
    (∀ (result : ProcessResult) (pa : Option ProjectAnalysis),
      result.fileContents = entries →
      buildInitialPrompt result pa =
        initialHeader pa result.fileTree ++ renderFiles (selectFiles entries 0)) := by
  have hsel := selectFiles_eq_filter_take entries 0
  refine ⟨?_, hsel, ?_, ?_⟩
  · rw [hsel]
    simp [List.length_take]
  · intro p b hmem
    rw [hsel] at hmem
    obtain ⟨⟨p', c⟩, hmem', heq⟩ := List.mem_map.mp hmem
    simp only [Prod.mk.injEq] at heq
    obtain ⟨hpp, hbb⟩ := heq
    subst hpp
    have hfil := List.mem_of_mem_take hmem'
    have hin := List.mem_of_mem_filter hfil
    have hb64 := List.of_mem_filter hfil
    refine ⟨c, hin, by simpa using hb64, ?_⟩
    by_cases hlen : c.content.length > 5000
    · exact Or.inr ⟨hlen, by rw [← hbb]; simp [truncateContent, hlen]⟩
    · exact Or.inl ⟨by omega, by rw [← hbb]; simp [truncateContent, hlen]⟩
  · intro result pa hfc
    unfold buildInitialPrompt
    rw [hfc, fileSectionLoop_eq_renderFiles]

/-- Claim C5 witness: a map with one short text file. -/
theorem C5_initial_prompt_file_cap_witness :
    (∃ c, ("a", c) ∈ [("a", FileContent.mk "hi" false)] ∧ c.isBase64 = false ∧
      ((c.content.length ≤ 5000 ∧ "hi" = c.content) ∨
       (5000 < c.content.length ∧ "hi" = c.content.take 5000 ++ truncMarker))) ∧
    buildInitialPrompt ⟨none, [("a", FileContent.mk "hi" false)]⟩ none =
      initialHeader none none ++ renderFiles (selectFiles [("a", FileContent.mk "hi" false)] 0) :=
  ⟨(C5_initial_prompt_file_cap [("a", FileContent.mk "hi" false)]).2.2.1 "a" "hi" (by decide),
   (C5_initial_prompt_file_cap [("a", FileContent.mk "hi" false)]).2.2.2
     ⟨none, [("a", FileContent.mk "hi" false)]⟩ none rfl⟩

/-- The concatenation of the text fragments of a chunk list. -/
def concatTexts (chunks : List StreamChunk) : String :=
  String.join (chunks.map StreamChunk.text)

theorem concatTexts_eq_foldl (chunks : List StreamChunk) :
    concatTexts chunks = chunks.foldl (fun a c => a ++ c.text) "" := by
  simp [concatTexts, String.join, List.foldl_map]

/-- On an error-free upstream stream, the relay forwards every chunk in order
and reports the accumulated answer. -/
theorem relayChunks_no_error (chunks : List StreamChunk)
    (h : ∀ c ∈ chunks, c.error = none) :
    ∀ acc : String,
      relayChunks chunks acc = (chunks, some (chunks.foldl (fun a c => a ++ c.text) acc)) := by
  induction chunks with
  | nil => intro acc; simp [relayChunks]
  | cons c rest ih =>
    intro acc
    have hc : c.error = none := h c (by simp)
    simp [relayChunks, hc, ih (fun x hx => h x (by simp [hx]))]

/-- Claim C8: for a streaming Ask whose upstream chunks carry no error, the
caller's channel receives exactly the upstream chunks, in order (then closes),
and the conversation's last message is the assistant message whose content is
the concatenation of the forwarded text fragments. -/
theorem C8_stream_forward_and_persist (hist : ConvStore) (result : ProcessResult)
    (pa : Option ProjectAnalysis) (question sid : String) (now : Nat)
    (chunks : List StreamChunk) (h : ∀ c ∈ chunks, c.error = none) :
    (askQuestionAboutCodeStream hist result pa question sid now (fun _ => Except.ok chunks)).1 =
      Except.ok chunks ∧
    ∃ ctx, (askQuestionAboutCodeStream hist result pa question sid now
        (fun _ => Except.ok chunks)).2 sid = some ctx ∧
      ctx.messages.getLast? = some (assistantMsg (concatTexts chunks)) := by
  have hrel := relayChunks_no_error chunks h ""
  rw [concatTexts_eq_foldl]
  unfold askQuestionAboutCodeStream
  simp only [hrel]
  refine ⟨trivial, ?_⟩
  refine ⟨{ appendUser (lookupOrCreate hist (buildInitialPrompt result pa) sid now) question now with
            messages := (appendUser (lookupOrCreate hist (buildInitialPrompt result pa) sid now)
                question now).messages ++
              [assistantMsg (List.foldl (fun a c => a ++ c.text) "" chunks)] }, ?_, ?_⟩
  · simp [askPhase2, updateStore]
  · simp

/-- Claim C8 witness: the spec's mock stream `["Hel", "lo"]`. -/
theorem C8_stream_forward_and_persist_witness :
    (askQuestionAboutCodeStream emptyConvStore ⟨none, []⟩ none "q" "s" 0
        (fun _ => Except.ok [⟨"Hel", "", none⟩, ⟨"lo", "", none⟩])).1 =
      Except.ok [⟨"Hel", "", none⟩, ⟨"lo", "", none⟩] ∧
    (∃ ctx, (askQuestionAboutCodeStream emptyConvStore ⟨none, []⟩ none "q" "s" 0
        (fun _ => Except.ok [⟨"Hel", "", none⟩, ⟨"lo", "", none⟩])).2 "s" = some ctx ∧
      ctx.messages.getLast? = some (assistantMsg (concatTexts [⟨"Hel", "", none⟩, ⟨"lo", "", none⟩]))) ∧
    concatTexts [⟨"Hel", "", none⟩, ⟨"lo", "", none⟩] = "Hello" :=
  ⟨(C8_stream_forward_and_persist emptyConvStore ⟨none, []⟩ none "q" "s" 0
      [⟨"Hel", "", none⟩, ⟨"lo", "", none⟩] (by decide)).1,
   (C8_stream_forward_and_persist emptyConvStore ⟨none, []⟩ none "q" "s" 0
      [⟨"Hel", "", none⟩, ⟨"lo", "", none⟩] (by decide)).2,
   by decide⟩

/-! ## Conversation-store invariants (C2) -/

theorem askPhase1_at (hist : ConvStore) (ip sid q : String) (now : Nat) :
    askPhase1 hist ip sid q now sid = some (appendUser (lookupOrCreate hist ip sid now) q now) := by
  simp [askPhase1, updateStore]

theorem askPhase1_ne (hist : ConvStore) (ip sid q : String) (now : Nat)
    (k : String) (h : k ≠ sid) : askPhase1 hist ip sid q now k = hist k := by
  simp [askPhase1, updateStore, h]

theorem askPhase2_at (hist : ConvStore) (sid resp : String) :
    askPhase2 hist sid resp sid =
      (hist sid).map (fun c => { c with messages := c.messages ++ [assistantMsg resp] }) := by
  show (if sid = sid then _ else _) = _
  rw [if_pos rfl]
  cases hist sid <;> rfl

theorem askPhase2_ne (hist : ConvStore) (sid resp k : String) (h : k ≠ sid) :
    askPhase2 hist sid resp k = hist k := by
  show (if k = sid then _ else _) = _
  rw [if_neg h]

theorem alternatesFrom_append (l : List String) :
    ∀ (r : String) (m : List String),
      alternatesFrom r (l ++ m) = (alternatesFrom r l && alternatesFrom (roleAfter r l) m) := by
  induction l with
  | nil => intro r m; simp [alternatesFrom, roleAfter]
  | cons x xs ih =>
    intro r m
    have h1 : alternatesFrom r ((x :: xs) ++ m) =
        ((decide (x = r)) && alternatesFrom (flipRole r) (xs ++ m)) := rfl
    have h2 : alternatesFrom r (x :: xs) =
        ((decide (x = r)) && alternatesFrom (flipRole r) xs) := rfl
    have h3 : roleAfter r (x :: xs) = roleAfter (flipRole r) xs := rfl
    rw [h1, h2, h3, ih (flipRole r) m, Bool.and_assoc]

theorem roleAfter_append (r : String) (l m : List String) :
    roleAfter r (l ++ m) = roleAfter (roleAfter r l) m := by
  simp [roleAfter, List.foldl_append]

/-- The alternation invariant maintained by successful Asks: every stored
conversation alternates starting with user, and has consumed an even number
of turns (the next expected role is again `user`). -/
def ConvOkInv (s : ConvStore) : Prop :=
  ∀ sid ctx, s sid = some ctx →
    alternatesFrom "user" (ctx.messages.map ConversationMsg.role) = true ∧
    roleAfter "user" (ctx.messages.map ConversationMsg.role) = "user"

theorem convOkInv_step {s t : ConvStore} (hs : ConvOkInv s) (hstep : AskStepOk s t) :
    ConvOkInv t := by
  cases hstep with
  | ok ip sid q now resp =>
    intro k ctx hk
    by_cases hks : k = sid
    · subst hks
      rw [askPhase2_at, askPhase1_at] at hk
      simp only [Option.map_some'] at hk
      cases hk
      have hbase : alternatesFrom "user" ((lookupOrCreate s ip k now).messages.map ConversationMsg.role) = true ∧
          roleAfter "user" ((lookupOrCreate s ip k now).messages.map ConversationMsg.role) = "user" := by
        cases hh : s k with
        | none => simp [lookupOrCreate, hh, alternatesFrom, roleAfter]
        | some c => simpa [lookupOrCreate, hh] using hs k c hh
      obtain ⟨halt, hafter⟩ := hbase
      constructor
      · simp only [appendUser, List.map_append, List.append_assoc]
        rw [alternatesFrom_append, halt, hafter]
        simp [userMsg, assistantMsg, alternatesFrom, flipRole]
      · simp only [appendUser, List.map_append, List.append_assoc]
        rw [roleAfter_append, hafter]
        simp [userMsg, assistantMsg, roleAfter, flipRole]
    · rw [askPhase2_ne _ _ _ _ hks, askPhase1_ne _ _ _ _ _ _ hks] at hk
      exact hs k ctx hk

theorem reachableConvOk_inv {s : ConvStore} (h : ReachableConvOk s) : ConvOkInv s := by
  induction h with
  | init => intro sid ctx hc; simp [emptyConvStore] at hc
  | step _ hstep ih => exact convOkInv_step ih hstep

/-- Claim C2, counterexample to the claim as stated: after an Ask whose LLM
call failed (the user question stays recorded, no assistant message) and a
subsequent successful Ask, the reachable conversation holds the role sequence
`user, user, assistant`, which does not alternate. -/
theorem C2_alternation_counterexample :
    ReachableConv
      (askPhase2 (askPhase1 (askPhase1 emptyConvStore "IP" "s" "q1" 0) "IP" "s" "q2" 1) "s" "a2") ∧
    ∃ ctx,
      askPhase2 (askPhase1 (askPhase1 emptyConvStore "IP" "s" "q1" 0) "IP" "s" "q2" 1) "s" "a2" "s" =
        some ctx ∧
      ctx.messages.map ConversationMsg.role = ["user", "user", "assistant"] ∧
      alternatesUserFirst ctx.messages = false := by
  refine ⟨?_, ⟨"IP", [userMsg "q1", userMsg "q2", assistantMsg "a2"], 1⟩, by decide, by decide, by decide⟩
  exact ReachableConv.step
    (ReachableConv.step ReachableConv.init (AskStep.fail emptyConvStore "IP" "s" "q1" 0))
    (AskStep.ok (askPhase1 emptyConvStore "IP" "s" "q1" 0) "IP" "s" "q2" 1 "a2")

/-- Claim C2 as amended: for every Ask step — including one whose LLM call
failed — every stored conversation's message list only grows (the new value
extends the old one by a suffix, never removing or reordering); and in every
state reached through Asks whose LLM calls all succeeded, roles alternate
beginning with `user`. (After a failed Ask a later Ask can produce two
consecutive `user` messages, as the counterexample shows.) -/
theorem C2_grow_and_alternate_on_success :
    (∀ s t, AskStep s t → ∀ sid ctx, s sid = some ctx →
      ∃ ctx', t sid = some ctx' ∧ ∃ more, ctx'.messages = ctx.messages ++ more) ∧
    (∀ s, ReachableConvOk s → ∀ sid ctx, s sid = some ctx →
      alternatesUserFirst ctx.messages = true) := by
  constructor
  · intro s t hstep sid ctx hc
    cases hstep with
    | ok ip sid0 q now resp =>
      by_cases hks : sid = sid0
      · subst hks
        rw [askPhase2_at, askPhase1_at]
        simp only [Option.map_some']
        refine ⟨_, rfl, [userMsg q, assistantMsg resp], ?_⟩
        simp [appendUser, lookupOrCreate, hc]
      · rw [askPhase2_ne _ _ _ _ hks, askPhase1_ne _ _ _ _ _ _ hks]
        exact ⟨ctx, hc, [], by simp⟩
    | fail ip sid0 q now =>
      by_cases hks : sid = sid0
      · subst hks
        rw [askPhase1_at]
        exact ⟨_, rfl, [userMsg q], by simp [appendUser, lookupOrCreate, hc]⟩
      · rw [askPhase1_ne _ _ _ _ _ _ hks]
        exact ⟨ctx, hc, [], by simp⟩
  · intro s hreach sid ctx hc
    exact (reachableConvOk_inv hreach sid ctx hc).1

/-- Claim C2 witness: growth across one concrete failed-then-queried step and
alternation in a concrete success-only state. -/
theorem C2_grow_and_alternate_on_success_witness :
    (∃ ctx', askPhase1 (askPhase1 emptyConvStore "IP" "s" "q1" 0) "IP" "s" "q2" 1 "s" = some ctx' ∧
      ∃ more, ctx'.messages = (⟨"IP", [userMsg "q1"], 0⟩ : ConversationContext).messages ++ more) ∧
    alternatesUserFirst
      (⟨"IP", [userMsg "q", assistantMsg "a"], 0⟩ : ConversationContext).messages = true :=
  ⟨C2_grow_and_alternate_on_success.1
      (askPhase1 emptyConvStore "IP" "s" "q1" 0)
      (askPhase1 (askPhase1 emptyConvStore "IP" "s" "q1" 0) "IP" "s" "q2" 1)
      (AskStep.fail (askPhase1 emptyConvStore "IP" "s" "q1" 0) "IP" "s" "q2" 1)
      "s" ⟨"IP", [userMsg "q1"], 0⟩ (by decide),
   C2_grow_and_alternate_on_success.2
      (askPhase2 (askPhase1 emptyConvStore "IP" "s" "q" 0) "s" "a")
      (ReachableConvOk.step ReachableConvOk.init (AskStepOk.ok emptyConvStore "IP" "s" "q" 0 "a"))
      "s" ⟨"IP", [userMsg "q", assistantMsg "a"], 0⟩ (by decide)⟩

/-! ## Retry policy of the blocking gateway (C6) -/

theorem delaysFor_succ (n : Nat) : delaysFor (n + 1) = delaysFor n ++ [2 * 2 ^ n] := by
  simp [delaysFor, List.range_succ]

theorem delaysArg (a : Nat) :
    (if 0 < a then delaysFor (a - 1) ++ [2 * 2 ^ (a - 1)] else delaysFor (a - 1)) =
      delaysFor a := by
  cases a with
  | zero => simp
  | succ n => simp [delaysFor_succ]

theorem delayArg (a : Nat) :
    (if 0 < a then 2 * 2 ^ (a - 1) * 2 else 2 * 2 ^ (a - 1)) = 2 * 2 ^ a := by
  cases a with
  | zero => simp
  | succ n => simp [pow_succ]; ring

/-- The contract of the retry loop from attempt `a` on: at most three
attempts; the sleeps are exactly the doubling backoff; every attempt that was
followed by another was retryable; a 4xx or a model-blocked body stops the
loop at the very attempt where it occurs; and if the remaining attempts are
all transport errors the generic failure results. -/
def SendLoopSpec (oracle : Nat → AttemptOutcome) (a : Nat) (r : SendResult) : Prop :=
  r.2.1 ≤ 3 ∧
  r.2.2 = delaysFor (r.2.1 - 1) ∧
  (∀ k, a ≤ k → k + 1 < r.2.1 → retryable (oracle k) = true) ∧
  (∀ k s b, a ≤ k → k < r.2.1 → oracle k = AttemptOutcome.response s b →
    (s < 200 ∨ 300 ≤ s) → s < 500 →
    r.1 = Except.error (SendError.apiError s) ∧ r.2.1 = k + 1) ∧
  (∀ k s g, a ≤ k → k < r.2.1 → oracle k = AttemptOutcome.response s (some g) →
    ¬(s < 200 ∨ 300 ≤ s) → g.blockReason ≠ "" →
    r.1 = Except.error (SendError.blocked g.blockReason) ∧ r.2.1 = k + 1) ∧
  ((∀ k, a ≤ k → k < 3 → oracle k = AttemptOutcome.transportError) →
    r.1 = Except.error SendError.maxRetriesExceeded)

theorem sendLoopSpec_ofSucc {oracle : Nat → AttemptOutcome} {a : Nat} {r : SendResult}
    (h : SendLoopSpec oracle (a + 1) r)
    (hra : retryable (oracle a) = true)
    (h4 : ∀ s b, oracle a = AttemptOutcome.response s b →
      (s < 200 ∨ 300 ≤ s) → s < 500 → False)
    (h5 : ∀ s g, oracle a = AttemptOutcome.response s (some g) →
      ¬(s < 200 ∨ 300 ≤ s) → g.blockReason ≠ "" → False) :
    SendLoopSpec oracle a r := by
  obtain ⟨h1, h2, h3, hA, hB, h6⟩ := h
  refine ⟨h1, h2, ?_, ?_, ?_, ?_⟩
  · intro k hk hk2
    rcases Nat.eq_or_lt_of_le hk with rfl | hlt
    · exact hra
    · exact h3 k hlt hk2
  · intro k s b hk hk2 ho hst hlt
    rcases Nat.eq_or_lt_of_le hk with rfl | hgt
    · exact (h4 s b ho hst hlt).elim
    · exact hA k s b hgt hk2 ho hst hlt
  · intro k s g hk hk2 ho hst hbr
    rcases Nat.eq_or_lt_of_le hk with rfl | hgt
    · exact (h5 s g ho hst hbr).elim
    · exact hB k s g hgt hk2 ho hst hbr
  · intro hall
    exact h6 (fun k hk hk3 => hall k (by omega) hk3)

theorem sendLoopSpec_terminal (oracle : Nat → AttemptOutcome) (a : Nat) (ha : a ≤ 2)
    (status : Nat) (body : Option GeminiBody)
    (ho : oracle a = AttemptOutcome.response status body)
    (e : Except SendError String)
    (h4 : ∀ s b, oracle a = AttemptOutcome.response s b →
      (s < 200 ∨ 300 ≤ s) → s < 500 → e = Except.error (SendError.apiError s))
    (h5 : ∀ s g, oracle a = AttemptOutcome.response s (some g) →
      ¬(s < 200 ∨ 300 ≤ s) → g.blockReason ≠ "" →
      e = Except.error (SendError.blocked g.blockReason)) :
    SendLoopSpec oracle a (e, a + 1, delaysFor a) := by
  refine ⟨?_, ?_, ?_, ?_, ?_, ?_⟩
  · show a + 1 ≤ 3
    omega
  · show delaysFor a = delaysFor (a + 1 - 1)
    simp
  · intro k hk hk2
    have hk2' : k + 1 < a + 1 := hk2
    exact ((by omega : False)).elim
  · intro k s b hk hk2 ho2 hst hlt
    have hk2' : k < a + 1 := hk2
    have hk0 : k = a := by omega
    subst hk0
    exact ⟨h4 s b ho2 hst hlt, rfl⟩
  · intro k s g hk hk2 ho2 hst hbr
    have hk2' : k < a + 1 := hk2
    have hk0 : k = a := by omega
    subst hk0
    exact ⟨h5 s g ho2 hst hbr, rfl⟩
  · intro hall
    rw [hall a le_rfl (by omega)] at ho
    exact AttemptOutcome.noConfusion ho

theorem sendLoop_spec (oracle : Nat → AttemptOutcome) :
    ∀ remaining : Nat, ∀ a : Nat, a + remaining = 3 →
      SendLoopSpec oracle a (sendLoop oracle remaining a (2 * 2 ^ (a - 1)) (delaysFor (a - 1))) := by
  intro remaining
  induction remaining with
  | zero =>
    intro a h
    have ha : a = 3 := by omega
    subst ha
    simp only [sendLoop]
    refine ⟨?_, rfl, ?_, ?_, ?_, fun _ => rfl⟩
    · show (3 : Nat) ≤ 3
      omega
    · intro k hk hk2
      have hk2' : k + 1 < 3 := hk2
      exact ((by omega : False)).elim
    · intro k s b hk hk2 _ _ _
      have hk2' : k < 3 := hk2
      exact ((by omega : False)).elim
    · intro k s g hk hk2 _ _ _
      have hk2' : k < 3 := hk2
      exact ((by omega : False)).elim
  | succ n ih =>
    intro a h
    have ha2 : a ≤ 2 := by omega
    have ih' := ih (a + 1) (by omega)
    simp only [Nat.add_sub_cancel] at ih'
    simp only [sendLoop, delaysArg, delayArg]
    cases ho : oracle a with
    | transportError =>
      simp only [ho]
      refine sendLoopSpec_ofSucc ih' (by simp [retryable, ho]) ?_ ?_
      · intro s b hh
        rw [ho] at hh
        exact fun _ _ => AttemptOutcome.noConfusion hh
      · intro s g hh
        rw [ho] at hh
        exact fun _ _ => AttemptOutcome.noConfusion hh
    | response status body =>
      simp only [ho]
      by_cases h2xx : status < 200 ∨ 300 ≤ status
      · by_cases h5r : 500 ≤ status ∧ a < 2
        · rw [if_pos h2xx, if_pos h5r]
          refine sendLoopSpec_ofSucc ih' ?_ ?_ ?_
          · simp [retryable, ho, h2xx]
            omega
          · intro s b hh hst hlt
            rw [ho] at hh
            cases hh
            omega
          · intro s g hh hst hbr
            rw [ho] at hh
            cases hh
            exact hst h2xx
        · rw [if_pos h2xx, if_neg h5r]
          refine sendLoopSpec_terminal oracle a ha2 status body ho _ ?_ ?_
          · intro s b hh hst hlt
            rw [ho] at hh
            cases hh
            rfl
          · intro s g hh hst hbr
            rw [ho] at hh
            cases hh
            exact (hst h2xx).elim
      · rw [if_neg h2xx]
        cases body with
        | none =>
          by_cases hlt2 : a < 2
          · rw [if_pos hlt2]
            refine sendLoopSpec_ofSucc ih' (by simp [retryable, ho, h2xx]) ?_ ?_
            · intro s b hh hst _
              rw [ho] at hh
              cases hh
              exact h2xx hst
            · intro s g hh
              rw [ho] at hh
              cases hh
          · rw [if_neg hlt2]
            refine sendLoopSpec_terminal oracle a ha2 status none ho _ ?_ ?_
            · intro s b hh hst _
              rw [ho] at hh
              cases hh
              exact (h2xx hst).elim
            · intro s g hh
              rw [ho] at hh
              cases hh
        | some g0 =>
          show SendLoopSpec oracle a
            (if g0.blockReason ≠ "" then
              (Except.error (SendError.blocked g0.blockReason), a + 1, delaysFor a)
             else if candidatesEmpty g0 = true then
               (if a < 2 then sendLoop oracle n (a + 1) (2 * 2 ^ a) (delaysFor a)
                else (Except.error SendError.emptyResponse, a + 1, delaysFor a))
             else
               (if headText g0 = "" then Except.error SendError.maxRetriesExceeded
                else Except.ok (headText g0), a + 1, delaysFor a))
          by_cases hbr : g0.blockReason ≠ ""
          · rw [if_pos hbr]
            refine sendLoopSpec_terminal oracle a ha2 status (some g0) ho _ ?_ ?_
            · intro s b hh hst _
              rw [ho] at hh
              cases hh
              exact (h2xx hst).elim
            · intro s g hh hst hbr2
              rw [ho] at hh
              cases hh
              rfl
          · rw [if_neg hbr]
            by_cases hce : candidatesEmpty g0 = true
            · by_cases hlt2 : a < 2
              · rw [if_pos hce, if_pos hlt2]
                refine sendLoopSpec_ofSucc ih' ?_ ?_ ?_
                · simp only [retryable, ho, if_neg h2xx]
                  simp only [ne_eq, not_not] at hbr
                  simp [hbr, hce]
                · intro s b hh hst _
                  rw [ho] at hh
                  cases hh
                  exact h2xx hst
                · intro s g hh hst hbr2
                  rw [ho] at hh
                  cases hh
                  exact hbr hbr2
              · rw [if_pos hce, if_neg hlt2]
                refine sendLoopSpec_terminal oracle a ha2 status (some g0) ho _ ?_ ?_
                · intro s b hh hst _
                  rw [ho] at hh
                  cases hh
                  exact (h2xx hst).elim
                · intro s g hh hst hbr2
                  rw [ho] at hh
                  cases hh
                  exact (hbr hbr2).elim
            · rw [if_neg hce]
              refine sendLoopSpec_terminal oracle a ha2 status (some g0) ho _ ?_ ?_
              · intro s b hh hst _
                rw [ho] at hh
                cases hh
                exact (h2xx hst).elim
              · intro s g hh hst hbr2
                rw [ho] at hh
                cases hh
                exact (hbr hbr2).elim

/-- Claim C6: the blocking Send performs at most 3 attempts with exponential
backoff (sleeps of 2s then 4s, doubling); every attempt that was followed by
another was a transport error, a 5xx, a decode failure, or an empty candidate
set; a 4xx response or a model-blocked body is returned as a hard failure on
the very attempt where it occurs; and when every attempt is a transport error
the loop is exhausted and yields the generic max-retries failure. -/
theorem C6_send_retry_policy (apiKey : String) (oracle : Nat → AttemptOutcome)
    (hkey : apiKey ≠ "") :
    (sendPrompt apiKey oracle).2.1 ≤ 3 ∧
    (sendPrompt apiKey oracle).2.2 = delaysFor ((sendPrompt apiKey oracle).2.1 - 1) ∧
    (∀ k, k + 1 < (sendPrompt apiKey oracle).2.1 → retryable (oracle k) = true) ∧
    (∀ k s b, k < (sendPrompt apiKey oracle).2.1 → oracle k = AttemptOutcome.response s b →
      (s < 200 ∨ 300 ≤ s) → s < 500 →
      (sendPrompt apiKey oracle).1 = Except.error (SendError.apiError s) ∧
      (sendPrompt apiKey oracle).2.1 = k + 1) ∧
    (∀ k s g, k < (sendPrompt apiKey oracle).2.1 →
      oracle k = AttemptOutcome.response s (some g) →
      ¬(s < 200 ∨ 300 ≤ s) → g.blockReason ≠ "" →
      (sendPrompt apiKey oracle).1 = Except.error (SendError.blocked g.blockReason) ∧
      (sendPrompt apiKey oracle).2.1 = k + 1) ∧
    ((∀ k, k < 3 → oracle k = AttemptOutcome.transportError) →
      (sendPrompt apiKey oracle).1 = Except.error SendError.maxRetriesExceeded) := by
  have h0 := sendLoop_spec oracle 3 0 (by omega)
  have he : sendPrompt apiKey oracle =
      sendLoop oracle 3 0 (2 * 2 ^ (0 - 1)) (delaysFor (0 - 1)) := by
    simp [sendPrompt, hkey, delaysFor]
  rw [he]
  obtain ⟨h1, h2, h3, h4, h5, h6⟩ := h0
  exact ⟨h1, h2, fun k hk2 => h3 k (Nat.zero_le k) hk2,
    fun k s b hk ho hst hlt => h4 k s b (Nat.zero_le k) hk ho hst hlt,
    fun k s g hk ho hst hbr => h5 k s g (Nat.zero_le k) hk ho hst hbr,
    fun hall => h6 (fun k _ hk3 => hall k hk3)⟩

/-- Claim C6 witness: three transport errors exhaust the retries and produce
the generic failure. -/
theorem C6_send_retry_policy_witness :
    (sendPrompt "k" (fun _ => AttemptOutcome.transportError)).1 =
      Except.error SendError.maxRetriesExceeded :=
  (C6_send_retry_policy "k" (fun _ => AttemptOutcome.transportError)
    (by decide)).2.2.2.2.2 (fun _ _ => rfl)

/-- The C7 failing input: attempt 0 answers 200, streams the fragment `Hel`,
then dies with a scanner read error; attempt 1 answers 200 and streams `Hel`,
`lo`, `[DONE]`. -/
def c7oracle : Nat → StreamAttempt
  | 0 => StreamAttempt.response 200 [SSEEvent.payload ⟨"", [⟨["Hel"], ""⟩]⟩] true
  | _ + 1 => StreamAttempt.response 200
      [SSEEvent.payload ⟨"", [⟨["Hel"], ""⟩]⟩, SSEEvent.payload ⟨"", [⟨["lo"], ""⟩]⟩,
       SSEEvent.done] false

/-- Claim C7, evaluated on the failing input: after the content fragment
`Hel` has been forwarded, the read error is pushed as an error chunk — but
the goroutine's closure `return` only leaves the per-attempt closure, so the
outer loop retries the whole request and forwards its chunks again: the
channel carries `Hel`, the error chunk, then `Hel`, `lo`, duplicating the
committed fragment. This contradicts the claim (and the spec's stated
intent, which the `successfulStream` flag exists to implement): the error
chunk is neither terminal nor does it prevent a retry. -/
theorem C7_stream_retry_after_commit :
    sendPromptStream "key" c7oracle =
      Except.ok [⟨"Hel", "", none⟩, ⟨"", "", some "读取流失败"⟩,
        ⟨"Hel", "", none⟩, ⟨"lo", "", none⟩] ∧
    (streamLoop c7oracle 2 0).count ⟨"Hel", "", none⟩ = 2 := by
  exact ⟨rfl, by decide⟩

end RepoPromptWeb
